import Mathlib

/-!
Shallow embedding of the geometric alignment core of the face time-lapse
application (`script.js`): landmark geometry (`getCentroid`, the derived
eye angle/distance/center), the per-frame transform built by `renderFrame`,
and the `autoFitZoom` solver.  JavaScript numbers are modelled as real
numbers; `Math.atan2 dy dx` is modelled as the argument of the complex
number `dx + dy*I`, which has the same mathematical semantics on finite
inputs.  The one JS value with no real counterpart is `Infinity`, used by
`autoFitZoom` as the starting accumulator of `maxScaleForThisImage`; it is
modelled as `none : Option ℝ`, whose behaviour under `Math.min`,
multiplication by a positive real and division agrees with IEEE `Infinity`.
-/

/-- A 2-D point, y-down image coordinates. -/
@[ext]
structure Point2D where
  x : ℝ
  y : ℝ

/-- The landmark structure a detection exposes: one point cluster per eye
(`landmarks.getLeftEye()` / `landmarks.getRightEye()` in the source). -/
structure Landmarks where
  leftEye : List Point2D
  rightEye : List Point2D

/-- One entry of `state.images`: the decoded raster's pixel size and the
optional detection result (`item.detections`). -/
structure Frame where
  width : ℝ
  height : ℝ
  detections : Option Landmarks

/-- Derived face geometry: midpoint of the eye centers, eye-line angle and
eye distance. -/
structure FaceGeometry where
  eyesCenter : Point2D
  angle : ℝ
  eyeDistance : ℝ

/-- The mutable session state touched by the operations under study
(`state` in the source, restricted to the fields the core reads/writes). -/
structure Session where
  images : List Frame
  canvasWidth : ℝ
  canvasHeight : ℝ
  zoom : ℝ
  fps : ℕ
  currentFrame : ℕ
  isPlaying : Bool
  alignEyes : Bool

/-- `Math.atan2 y x`, modelled as the argument of the complex number
`x + y*I` (identical on all finite inputs, including `atan2 0 0 = 0`). -/
noncomputable def atan2 (y x : ℝ) : ℝ :=
  Complex.arg ⟨x, y⟩

/-- `getCentroid(points)` from the source: componentwise sum via `reduce`
from `{x:0, y:0}`, divided by `points.length`.  (On an empty list the JS
code divides 0 by 0, yielding `NaN`; in the real model this is the junk
value `0/0 = 0` — there is no failure path.) -/
noncomputable def getCentroid (points : List Point2D) : Point2D :=
  let sum := points.foldl (fun acc p => ⟨acc.x + p.x, acc.y + p.y⟩) (⟨0, 0⟩ : Point2D)
  ⟨sum.x / points.length, sum.y / points.length⟩

/-- The face geometry both `renderFrame` and `autoFitZoom` derive from the
two eye centers: `dx/dy` of right−left, `angle = atan2(dy, dx)`,
`eyesCenter` the midpoint, `eyeDistance = sqrt(dx*dx + dy*dy)`. -/
noncomputable def faceGeometryOf (leftEyeCenter rightEyeCenter : Point2D) : FaceGeometry :=
  let dx := rightEyeCenter.x - leftEyeCenter.x
  let dy := rightEyeCenter.y - leftEyeCenter.y
  { eyesCenter := ⟨(leftEyeCenter.x + rightEyeCenter.x) / 2,
                   (leftEyeCenter.y + rightEyeCenter.y) / 2⟩
    angle := atan2 dy dx
    eyeDistance := Real.sqrt (dx * dx + dy * dy) }

/-- The point transform of `renderFrame`'s aligned branch: the canvas ops
`translate(targetX, targetY); scale(s, s); rotate(-angle);
translate(-eyesCenter.x, -eyesCenter.y)` with
`s = canvas.width * zoom / eyeDistance`, applied to a source point. -/
noncomputable def buildTransformPoint (W H zoom : ℝ) (g : FaceGeometry) (p : Point2D) :
    Point2D :=
  let scale := W * zoom / g.eyeDistance
  let cosv := Real.cos (-g.angle)
  let sinv := Real.sin (-g.angle)
  let relX := p.x - g.eyesCenter.x
  let relY := p.y - g.eyesCenter.y
  ⟨scale * (relX * cosv - relY * sinv) + W * 0.5,
   scale * (relX * sinv + relY * cosv) + H * 0.4⟩

/-- The point transform of `renderFrame`'s letterbox branch:
`scale = min(W/imgW, H/imgH)`, image drawn centered at
`((W - imgW*scale)/2, (H - imgH*scale)/2)`. -/
noncomputable def letterboxPoint (W H : ℝ) (fr : Frame) (p : Point2D) : Point2D :=
  let scale := min (W / fr.width) (H / fr.height)
  let x := (W - fr.width * scale) / 2
  let y := (H - fr.height * scale) / 2
  ⟨x + p.x * scale, y + p.y * scale⟩

/-- Which branch `renderFrame` takes: the letterbox branch is used unless
`state.alignEyes && item.detections` holds. -/
def usesLetterbox (alignEyes : Bool) (fr : Frame) : Bool :=
  !(alignEyes && fr.detections.isSome)

/-- `renderFrame`'s mapping of a source-image point to a canvas point,
for the frame's chosen branch. -/
noncomputable def renderPoint (W H zoom : ℝ) (alignEyes : Bool) (fr : Frame) (p : Point2D) :
    Point2D :=
  match alignEyes, fr.detections with
  | true, some lm =>
      buildTransformPoint W H zoom
        (faceGeometryOf (getCentroid lm.leftEye) (getCentroid lm.rightEye)) p
  | _, _ => letterboxPoint W H fr p

/-- `Math.min(acc, b)` where `acc` may still be the starting `Infinity`
(modelled as `none`). -/
def minUpd (acc : Option ℝ) (b : ℝ) : Option ℝ :=
  some (acc.elim b (fun a => min a b))

/-- The body of the `corners.forEach` loop in `autoFitZoom`: rotate the
corner by `-angle` about the eyes center and fold in the X-axis bound then
the Y-axis bound, each only when the rotated coordinate is nonzero. -/
noncomputable def cornerUpdate (W H : ℝ) (eyesCenter : Point2D) (cosv sinv : ℝ)
    (acc : Option ℝ) (p : Point2D) : Option ℝ :=
  let targetX := W * 0.5
  let targetY := H * 0.4
  let relX := p.x - eyesCenter.x
  let relY := p.y - eyesCenter.y
  let rotX := relX * cosv - relY * sinv
  let rotY := relX * sinv + relY * cosv
  let acc1 := if rotX > 0 then minUpd acc ((W - targetX) / rotX)
              else if rotX < 0 then minUpd acc (-targetX / rotX)
              else acc
  if rotY > 0 then minUpd acc1 ((H - targetY) / rotY)
  else if rotY < 0 then minUpd acc1 (-targetY / rotY)
  else acc1

/-- `maxScaleForThisImage` of `autoFitZoom`: fold `cornerUpdate` over the
four image corners `(0,0), (w,0), (w,h), (0,h)` starting from `Infinity`
(`none`). -/
noncomputable def maxScaleForImage (W H w h : ℝ) (eyesCenter : Point2D) (angle : ℝ) :
    Option ℝ :=
  let corners : List Point2D := [⟨0, 0⟩, ⟨w, 0⟩, ⟨w, h⟩, ⟨0, h⟩]
  let cosv := Real.cos (-angle)
  let sinv := Real.sin (-angle)
  corners.foldl (fun acc p => cornerUpdate W H eyesCenter cosv sinv acc p) none

/-- The per-image `safeZoom = maxScaleForThisImage * currentEyesDist /
canvasWidth` of `autoFitZoom`, with the eyes center, angle and eye
distance as independent inputs. -/
noncomputable def frameSafeZoomOf (W H w h : ℝ) (eyesCenter : Point2D) (angle d : ℝ) :
    Option ℝ :=
  (maxScaleForImage W H w h eyesCenter angle).map (fun s => s * d / W)

/-- The per-image computation of `autoFitZoom`'s `forEach` body: derive the
face geometry from the eye-cluster centroids, then the safe zoom. -/
noncomputable def frameSafeZoom (W H w h : ℝ) (lm : Landmarks) : Option ℝ :=
  let g := faceGeometryOf (getCentroid lm.leftEye) (getCentroid lm.rightEye)
  frameSafeZoomOf W H w h g.eyesCenter g.angle g.eyeDistance

/-- `minSafeZoom` after `autoFitZoom`'s loop: start at `1.0`, and for each
frame with detections take `Math.min` with its `safeZoom`.  A frame whose
bound stayed `Infinity` leaves the accumulator unchanged, as
`Math.min(acc, Infinity) = acc`. -/
noncomputable def autoFitMinSafeZoom (W H : ℝ) (frames : List Frame) : ℝ :=
  frames.foldl (fun minSafeZoom item =>
    match item.detections with
    | none => minSafeZoom
    | some lm =>
      match frameSafeZoom W H item.width item.height lm with
      | none => minSafeZoom
      | some safeZoom => min minSafeZoom safeZoom) 1.0

/-- The zoom `autoFitZoom` stores: `finalZoom = floor(minSafeZoom * 0.95 *
100) / 100`, then `clampedZoom = max(0.1, min(1.0, finalZoom))`. -/
noncomputable def autoFitZoom (W H : ℝ) (frames : List Frame) : ℝ :=
  let minSafeZoom := autoFitMinSafeZoom W H frames
  let finalZoom := (⌊minSafeZoom * 0.95 * 100⌋ : ℝ) / 100
  max 0.1 (min 1.0 finalZoom)

/-- The effect of the `autoFitZoom` handler on the session: an early
return when `state.images.length === 0`, otherwise only `state.zoom` is
replaced by the computed value. -/
noncomputable def autoFitSession (s : Session) : Session :=
  if s.images.length = 0 then s
  else { s with zoom := autoFitZoom s.canvasWidth s.canvasHeight s.images }

/-- Truncation to two decimal places (the slider granularity):
`floor(z * 100) / 100`. -/
noncomputable def truncate2 (z : ℝ) : ℝ :=
  (⌊z * 100⌋ : ℝ) / 100

/-- Stated per-corner bounds of the auto-fit spec: rotate the corner by
`-angle` about the eyes center; on each axis, `rot > 0` contributes
`(extent - target)/rot`, `rot < 0` contributes `-target/rot`, and
`rot = 0` contributes nothing.  The targets are `W*0.5` and `H*0.4`. -/
noncomputable def specCornerBounds (W H : ℝ) (eyesCenter : Point2D) (angle : ℝ)
    (p : Point2D) : List ℝ :=
  let cosv := Real.cos (-angle)
  let sinv := Real.sin (-angle)
  let rotX := (p.x - eyesCenter.x) * cosv - (p.y - eyesCenter.y) * sinv
  let rotY := (p.x - eyesCenter.x) * sinv + (p.y - eyesCenter.y) * cosv
  (if rotX > 0 then [(W - W * 0.5) / rotX]
   else if rotX < 0 then [-(W * 0.5) / rotX] else []) ++
  (if rotY > 0 then [(H - H * 0.4) / rotY]
   else if rotY < 0 then [-(H * 0.4) / rotY] else [])

/-- Stated per-image maximum safe scale: the minimum of all per-corner,
per-axis bounds over the four image corners (`none` when no corner
contributes a bound). -/
noncomputable def specMaxScale (W H w h : ℝ) (eyesCenter : Point2D) (angle : ℝ) :
    Option ℝ :=
  (([⟨0, 0⟩, ⟨w, 0⟩, ⟨w, h⟩, ⟨0, h⟩] : List Point2D).flatMap
    (specCornerBounds W H eyesCenter angle)).min?

/-- Stated per-frame safe zoom: skip frames without detections, convert
the maximum safe scale with `safeZoom = scale * eyeDistance / W`. -/
noncomputable def specFrameSafeZoom (W H : ℝ) (fr : Frame) : Option ℝ :=
  fr.detections.bind (fun lm =>
    let g := faceGeometryOf (getCentroid lm.leftEye) (getCentroid lm.rightEye)
    (specMaxScale W H fr.width fr.height g.eyesCenter g.angle).map
      (fun s => s * g.eyeDistance / W))

/-- Folding `Math.min` over a list of bounds, starting from an accumulator
that may still be `Infinity`. -/
def optFoldMin (acc : Option ℝ) (l : List ℝ) : Option ℝ :=
  l.foldl minUpd acc

/-- A frame whose two eye clusters coincide at one point: `eyeDistance = 0`
(the degenerate geometry of spec Scenario C). -/
def degLandmarks : Landmarks := ⟨[⟨5, 5⟩], [⟨5, 5⟩]⟩

/-- A 10×10 image carrying the degenerate detection. -/
def degFrame : Frame := ⟨10, 10, some degLandmarks⟩

/-- A 10×10 image whose detection failed (`detections` absent). -/
def noDetFrame : Frame := ⟨10, 10, none⟩

/-- A detection whose eye distance (100) far exceeds the 1×1 image, making
the per-frame safe zoom (80) exceed 1. -/
def wideLandmarks : Landmarks := ⟨[⟨-49.5, 0.5⟩], [⟨50.5, 0.5⟩]⟩

/-- The 1×1 image carrying `wideLandmarks`. -/
def wideFrame : Frame := ⟨1, 1, some wideLandmarks⟩

/-- A detection with an empty left-eye point cluster. -/
def emptyClusterFrame : Frame := ⟨10, 10, some ⟨[], [⟨1, 1⟩]⟩⟩

lemma optFoldMin_some (l : List ℝ) (a : ℝ) :
    optFoldMin (some a) l = some (l.min?.elim a (fun m => min a m)) := by
  induction l generalizing a with
  | nil => rfl
  | cons b t ih =>
    show optFoldMin (minUpd (some a) b) t = _
    simp only [minUpd, Option.elim_some, ih (min a b), List.min?_cons]
    cases t.min? with
    | none => rfl
    | some m => simp [min_assoc]

lemma optFoldMin_none (l : List ℝ) : optFoldMin none l = l.min? := by
  cases l with
  | nil => rfl
  | cons a t =>
    show optFoldMin (minUpd none a) t = _
    simp only [minUpd, Option.elim_none, optFoldMin_some, List.min?_cons]

lemma optFoldMin_append (acc : Option ℝ) (l₁ l₂ : List ℝ) :
    optFoldMin acc (l₁ ++ l₂) = optFoldMin (optFoldMin acc l₁) l₂ :=
  List.foldl_append ..

lemma cornerUpdate_eq_bounds (W H : ℝ) (c : Point2D) (angle : ℝ) (acc : Option ℝ)
    (p : Point2D) :
    cornerUpdate W H c (Real.cos (-angle)) (Real.sin (-angle)) acc p =
      optFoldMin acc (specCornerBounds W H c angle p) := by
  simp only [cornerUpdate, specCornerBounds, optFoldMin]
  split_ifs <;> simp [List.foldl]

lemma maxScaleForImage_eq_spec (W H w h : ℝ) (c : Point2D) (angle : ℝ) :
    maxScaleForImage W H w h c angle = specMaxScale W H w h c angle := by
  simp only [maxScaleForImage, specMaxScale, List.foldl, cornerUpdate_eq_bounds,
    List.flatMap_cons, List.flatMap_nil, List.append_nil, ← optFoldMin_append,
    List.append_assoc]
  rw [optFoldMin_none]

lemma specFrameSafeZoom_eq (W H : ℝ) (fr : Frame) :
    specFrameSafeZoom W H fr =
      match fr.detections with
      | none => none
      | some lm => frameSafeZoom W H fr.width fr.height lm := by
  obtain ⟨w, h, det⟩ := fr
  cases det with
  | none => rfl
  | some lm =>
    simp only [specFrameSafeZoom, frameSafeZoom, frameSafeZoomOf, Option.some_bind,
      maxScaleForImage_eq_spec]

lemma minUpd_nonneg {acc : Option ℝ} {b : ℝ}
    (hacc : ∀ x, acc = some x → 0 ≤ x) (hb : 0 ≤ b) :
    ∀ x, minUpd acc b = some x → 0 ≤ x := by
  intro x hx
  cases acc with
  | none =>
    simp only [minUpd, Option.elim_none, Option.some.injEq] at hx
    exact hx ▸ hb
  | some a =>
    simp only [minUpd, Option.elim_some, Option.some.injEq] at hx
    exact hx ▸ le_min (hacc a rfl) hb

lemma cornerUpdate_nonneg {W H : ℝ} (c : Point2D) (cosv sinv : ℝ) {acc : Option ℝ}
    (p : Point2D) (hW : 0 < W) (hH : 0 < H)
    (hacc : ∀ x, acc = some x → 0 ≤ x) :
    ∀ x, cornerUpdate W H c cosv sinv acc p = some x → 0 ≤ x := by
  simp only [cornerUpdate]
  split_ifs
  all_goals
    first
    | exact hacc
    | (refine minUpd_nonneg hacc ?_
       first
       | exact div_nonneg (by linarith) (by linarith)
       | exact div_nonneg_iff.mpr (Or.inr ⟨by linarith, by linarith⟩))
    | (refine minUpd_nonneg (minUpd_nonneg hacc ?_) ?_ <;>
       first
       | exact div_nonneg (by linarith) (by linarith)
       | exact div_nonneg_iff.mpr (Or.inr ⟨by linarith, by linarith⟩))

lemma maxScaleForImage_nonneg {W H : ℝ} (w h : ℝ) (c : Point2D) (angle : ℝ)
    (hW : 0 < W) (hH : 0 < H) :
    ∀ x, maxScaleForImage W H w h c angle = some x → 0 ≤ x := by
  simp only [maxScaleForImage, List.foldl]
  exact cornerUpdate_nonneg _ _ _ _ hW hH
    (cornerUpdate_nonneg _ _ _ _ hW hH
      (cornerUpdate_nonneg _ _ _ _ hW hH
        (cornerUpdate_nonneg _ _ _ _ hW hH (fun x hx => by simp at hx))))

lemma atan2_zero_of_nonneg {y x : ℝ} (hy : y = 0) (hx : 0 ≤ x) : atan2 y x = 0 := by
  exact Complex.arg_eq_zero_iff.mpr ⟨hx, hy⟩

lemma getCentroid_singleton (p : Point2D) : getCentroid [p] = p := by
  simp [getCentroid]

lemma faceGeometryOf_horizontal (L R : Point2D) (hy : R.y = L.y) (hx : L.x ≤ R.x) :
    faceGeometryOf L R =
      ⟨⟨(L.x + R.x) / 2, (L.y + R.y) / 2⟩, 0, R.x - L.x⟩ := by
  have hdy : R.y - L.y = 0 := by rw [hy, sub_self]
  have hdx : 0 ≤ R.x - L.x := by linarith
  simp only [faceGeometryOf, hdy, atan2_zero_of_nonneg rfl hdx, mul_zero, add_zero,
    Real.sqrt_mul_self hdx]

lemma getCentroid_sum (points : List Point2D) :
    getCentroid points =
      ⟨(points.map (fun p => p.x)).sum / points.length,
       (points.map (fun p => p.y)).sum / points.length⟩ := by
  have key : ∀ (l : List Point2D) (a b : ℝ),
      l.foldl (fun acc p => (⟨acc.x + p.x, acc.y + p.y⟩ : Point2D)) ⟨a, b⟩ =
        ⟨a + (l.map (fun p => p.x)).sum, b + (l.map (fun p => p.y)).sum⟩ := by
    intro l
    induction l with
    | nil => intro a b; simp
    | cons q t ih =>
      intro a b
      simp only [List.foldl_cons, ih, List.map_cons, List.sum_cons, Point2D.mk.injEq]
      constructor <;> ring
  simp only [getCentroid, key, zero_add]

lemma maxScale_ten : maxScaleForImage 100 100 10 10 ⟨5, 5⟩ 0 = some 8 := by
  norm_num [maxScaleForImage, cornerUpdate, minUpd, List.foldl, min_def,
    neg_zero, Real.cos_zero, Real.sin_zero]

lemma maxScale_unit : maxScaleForImage 100 100 1 1 ⟨0.5, 0.5⟩ 0 = some 80 := by
  norm_num [maxScaleForImage, cornerUpdate, minUpd, List.foldl, min_def,
    neg_zero, Real.cos_zero, Real.sin_zero]

lemma faceGeometryOf_deg : faceGeometryOf ⟨5, 5⟩ ⟨5, 5⟩ = ⟨⟨5, 5⟩, 0, 0⟩ := by
  rw [faceGeometryOf_horizontal ⟨5, 5⟩ ⟨5, 5⟩ rfl le_rfl]
  norm_num [FaceGeometry.mk.injEq, Point2D.mk.injEq]

lemma faceGeometryOf_wide :
    faceGeometryOf ⟨-49.5, 0.5⟩ ⟨50.5, 0.5⟩ = ⟨⟨0.5, 0.5⟩, 0, 100⟩ := by
  rw [faceGeometryOf_horizontal ⟨-49.5, 0.5⟩ ⟨50.5, 0.5⟩ rfl (by norm_num)]
  norm_num [FaceGeometry.mk.injEq, Point2D.mk.injEq]

lemma frameSafeZoom_deg : frameSafeZoom 100 100 10 10 degLandmarks = some 0 := by
  simp only [frameSafeZoom, degLandmarks, getCentroid_singleton, faceGeometryOf_deg,
    frameSafeZoomOf, maxScale_ten, Option.map_some]
  norm_num

lemma frameSafeZoom_wide : frameSafeZoom 100 100 1 1 wideLandmarks = some 80 := by
  simp only [frameSafeZoom, wideLandmarks, getCentroid_singleton, faceGeometryOf_wide,
    frameSafeZoomOf, maxScale_unit, Option.map_some]
  norm_num

lemma minSafe_deg : autoFitMinSafeZoom 100 100 [degFrame] = 0 := by
  simp only [autoFitMinSafeZoom, degFrame, List.foldl, frameSafeZoom_deg]
  norm_num [min_def]

lemma minSafe_wide : autoFitMinSafeZoom 100 100 [wideFrame] = 1 := by
  simp only [autoFitMinSafeZoom, wideFrame, List.foldl, frameSafeZoom_wide]
  norm_num [min_def]

lemma minSafe_noDet : autoFitMinSafeZoom 100 100 [noDetFrame] = 1 := by
  simp only [autoFitMinSafeZoom, noDetFrame, List.foldl]
  norm_num

lemma autoFitZoom_deg : autoFitZoom 100 100 [degFrame] = 0.1 := by
  rw [autoFitZoom, minSafe_deg]
  norm_num

lemma autoFitZoom_noDet : autoFitZoom 100 100 [noDetFrame] = 0.95 := by
  rw [autoFitZoom, minSafe_noDet]
  norm_num [min_def, max_def]

lemma autoFit_foldl_filterMap (W H : ℝ) (frames : List Frame) (acc : ℝ) :
    frames.foldl (fun minSafeZoom item =>
      match item.detections with
      | none => minSafeZoom
      | some lm =>
        match frameSafeZoom W H item.width item.height lm with
        | none => minSafeZoom
        | some safeZoom => min minSafeZoom safeZoom) acc =
      (frames.filterMap (specFrameSafeZoom W H)).foldl min acc := by
  induction frames generalizing acc with
  | nil => rfl
  | cons fr t ih =>
    obtain ⟨w, h, det⟩ := fr
    cases det with
    | none =>
      simp only [List.foldl_cons, List.filterMap_cons]
      have hspec : specFrameSafeZoom W H ⟨w, h, none⟩ = none := rfl
      rw [hspec]
      exact ih acc
    | some lm =>
      have hspec : specFrameSafeZoom W H ⟨w, h, some lm⟩ = frameSafeZoom W H w h lm :=
        specFrameSafeZoom_eq W H ⟨w, h, some lm⟩
      cases hz : frameSafeZoom W H w h lm with
      | none =>
        simp only [List.foldl_cons, List.filterMap_cons, hspec, hz]
        exact ih acc
      | some z =>
        simp only [List.foldl_cons, List.filterMap_cons, hspec, hz]
        exact ih (min acc z)

/-- C1: the per-frame bound structure of the auto-fit solver is as stated
(minimum over the 4 corners × 2 axes of the sign-cased bounds of the
corner rotated by `-angle` about the eyes center, converted by
`safeZoom = scale * eyeDistance / canvasWidth`), but the global value is
the minimum of the per-frame safe zooms **capped by the starting maximum
1.0**: `minSafeZoom` starts at `1.0`, so the global safe zoom is
`min 1.0 (min over frames with geometry)`, not the plain minimum over
frames. -/
theorem autoFit_global_min_capped (W H : ℝ) (frames : List Frame) :
    autoFitMinSafeZoom W H frames =
      (frames.filterMap (specFrameSafeZoom W H)).foldl min 1.0 :=
  autoFit_foldl_filterMap W H frames 1.0

/-- C1 counterexample: a single frame with geometry whose per-frame safe
zoom is 80, while the solver's global safe zoom is 1 — the global value is
not the minimum of the per-frame safe zooms. -/
theorem autoFit_global_min_cex :
    autoFitMinSafeZoom 100 100 [wideFrame] = 1 ∧
      specFrameSafeZoom 100 100 wideFrame = some 80 ∧ (1 : ℝ) ≠ 80 := by
  refine ⟨minSafe_wide, ?_, by norm_num⟩
  rw [specFrameSafeZoom_eq]
  exact frameSafeZoom_wide

/-- C2: for every face geometry with positive eye distance and every zoom
in (0,1], the built transform maps the eyes-center point exactly to
`(canvasWidth*0.5, canvasHeight*0.4)`. -/
theorem eyesCenter_maps_to_target (W H zoom : ℝ) (g : FaceGeometry)
    (hd : 0 < g.eyeDistance) (hz0 : 0 < zoom) (hz1 : zoom ≤ 1) :
    buildTransformPoint W H zoom g g.eyesCenter = ⟨W * 0.5, H * 0.4⟩ := by
  simp [buildTransformPoint]

/-- Witness for C2 at a concrete geometry. -/
theorem eyesCenter_maps_to_target_witness :
    buildTransformPoint 10 20 1 ⟨⟨3, 4⟩, 0.7, 2⟩ ⟨3, 4⟩ = ⟨10 * 0.5, 20 * 0.4⟩ :=
  eyesCenter_maps_to_target 10 20 1 ⟨⟨3, 4⟩, 0.7, 2⟩ (by norm_num) (by norm_num)
    (by norm_num)

/-- C3: for eye centers with positive eye distance, the distance between
the transformed left and right eye centers equals exactly
`canvasWidth * zoom` (exact equality implies the stated 1e-6 relative
tolerance). -/
theorem transformed_eye_distance (W H zoom : ℝ) (L R : Point2D)
    (hW : 0 < W) (hz : 0 < zoom) (hd : 0 < (faceGeometryOf L R).eyeDistance) :
    Real.sqrt
      (((buildTransformPoint W H zoom (faceGeometryOf L R) R).x -
          (buildTransformPoint W H zoom (faceGeometryOf L R) L).x) *
        ((buildTransformPoint W H zoom (faceGeometryOf L R) R).x -
          (buildTransformPoint W H zoom (faceGeometryOf L R) L).x) +
       ((buildTransformPoint W H zoom (faceGeometryOf L R) R).y -
          (buildTransformPoint W H zoom (faceGeometryOf L R) L).y) *
        ((buildTransformPoint W H zoom (faceGeometryOf L R) R).y -
          (buildTransformPoint W H zoom (faceGeometryOf L R) L).y)) = W * zoom := by
  obtain ⟨lx, ly⟩ := L
  obtain ⟨rx, ry⟩ := R
  simp only [faceGeometryOf] at hd ⊢
  have hq : 0 < (rx - lx) * (rx - lx) + (ry - ly) * (ry - ly) := Real.sqrt_pos.mp hd
  have hdsq : Real.sqrt ((rx - lx) * (rx - lx) + (ry - ly) * (ry - ly)) *
      Real.sqrt ((rx - lx) * (rx - lx) + (ry - ly) * (ry - ly)) =
      (rx - lx) * (rx - lx) + (ry - ly) * (ry - ly) := Real.mul_self_sqrt hq.le
  have hC : (⟨rx - lx, ry - ly⟩ : ℂ) ≠ 0 := by
    intro hc
    have h1 : rx - lx = 0 := congrArg Complex.re hc
    have h2 : ry - ly = 0 := congrArg Complex.im hc
    nlinarith [hq]
  have habs : Complex.abs ⟨rx - lx, ry - ly⟩ =
      Real.sqrt ((rx - lx) * (rx - lx) + (ry - ly) * (ry - ly)) := by
    rw [Complex.abs_apply, Complex.normSq_mk]
  have hcos : Real.cos (atan2 (ry - ly) (rx - lx)) =
      (rx - lx) / Real.sqrt ((rx - lx) * (rx - lx) + (ry - ly) * (ry - ly)) := by
    rw [atan2, Complex.cos_arg hC, habs]
  have hsin : Real.sin (atan2 (ry - ly) (rx - lx)) =
      (ry - ly) / Real.sqrt ((rx - lx) * (rx - lx) + (ry - ly) * (ry - ly)) := by
    rw [atan2, Complex.sin_arg, habs]
  simp only [buildTransformPoint, Real.cos_neg, Real.sin_neg, hcos, hsin]
  conv_rhs => rw [show W * zoom = Real.sqrt ((W * zoom) * (W * zoom)) from
    (Real.sqrt_mul_self (mul_nonneg hW.le hz.le)).symm]
  congr 1
  have hdne : Real.sqrt ((rx - lx) * (rx - lx) + (ry - ly) * (ry - ly)) ≠ 0 :=
    ne_of_gt hd
  field_simp
  linear_combination (-4 * (W * zoom) ^ 2 *
    (((rx - lx) * (rx - lx) + (ry - ly) * (ry - ly)) +
      Real.sqrt ((rx - lx) * (rx - lx) + (ry - ly) * (ry - ly)) *
        Real.sqrt ((rx - lx) * (rx - lx) + (ry - ly) * (ry - ly)))) * hdsq

/-- Witness for C3 at concrete eye centers. -/
theorem transformed_eye_distance_witness :
    Real.sqrt
      (((buildTransformPoint 10 7 0.5 (faceGeometryOf ⟨0, 0⟩ ⟨2, 0⟩) ⟨2, 0⟩).x -
          (buildTransformPoint 10 7 0.5 (faceGeometryOf ⟨0, 0⟩ ⟨2, 0⟩) ⟨0, 0⟩).x) *
        ((buildTransformPoint 10 7 0.5 (faceGeometryOf ⟨0, 0⟩ ⟨2, 0⟩) ⟨2, 0⟩).x -
          (buildTransformPoint 10 7 0.5 (faceGeometryOf ⟨0, 0⟩ ⟨2, 0⟩) ⟨0, 0⟩).x) +
       ((buildTransformPoint 10 7 0.5 (faceGeometryOf ⟨0, 0⟩ ⟨2, 0⟩) ⟨2, 0⟩).y -
          (buildTransformPoint 10 7 0.5 (faceGeometryOf ⟨0, 0⟩ ⟨2, 0⟩) ⟨0, 0⟩).y) *
        ((buildTransformPoint 10 7 0.5 (faceGeometryOf ⟨0, 0⟩ ⟨2, 0⟩) ⟨2, 0⟩).y -
          (buildTransformPoint 10 7 0.5 (faceGeometryOf ⟨0, 0⟩ ⟨2, 0⟩) ⟨0, 0⟩).y)) =
      10 * 0.5 :=
  transformed_eye_distance 10 7 0.5 ⟨0, 0⟩ ⟨2, 0⟩ (by norm_num) (by norm_num)
    (by norm_num [faceGeometryOf, Real.sqrt_pos])

/-- C4: the code has no epsilon guard.  A frame with `eyeDistance = 0` is
still rendered through the aligned branch (not letterbox), and it is not
excluded from auto-fit: its per-frame safe zoom evaluates to 0, dragging
the stored zoom to the clamp floor 0.1, whereas excluding it (as the claim
requires) would leave the no-constraint result 0.95. -/
theorem degenerate_frame_not_excluded :
    usesLetterbox true degFrame = false ∧
      autoFitZoom 100 100 [degFrame] = 0.1 ∧
      autoFitZoom 100 100 [noDetFrame] = 0.95 :=
  ⟨rfl, autoFitZoom_deg, autoFitZoom_noDet⟩

/-- C5: the stored zoom is exactly the computed global safe zoom times the
margin 0.95, truncated (floored) to two decimals, then clamped into
[0.1, 1.0] — in that order — and the result always lies in [0.1, 1]. -/
theorem autoFitZoom_margin_floor_clamp (W H : ℝ) (frames : List Frame) :
    autoFitZoom W H frames =
      max 0.1 (min 1.0 (truncate2 (autoFitMinSafeZoom W H frames * 0.95))) ∧
      0.1 ≤ autoFitZoom W H frames ∧ autoFitZoom W H frames ≤ 1 := by
  refine ⟨rfl, le_max_left _ _, ?_⟩
  rw [autoFitZoom]
  exact max_le (by norm_num) (le_trans (min_le_left _ _) (by norm_num))

/-- C6 counterexample: with one frame and no geometry at all, the stored
zoom is 0.95 (the margin applied to the untouched starting maximum), not
the configured maximum 1.0 "unchanged". -/
theorem autoFit_noGeometry_cex :
    (autoFitSession ⟨[noDetFrame], 100, 100, 0.25, 10, 0, false, true⟩).zoom = 0.95 ∧
      (0.95 : ℝ) ≠ 1 := by
  constructor
  · simp only [autoFitSession]
    norm_num [autoFitZoom_noDet]
  · norm_num

/-- C6 (amended): when the frame list is non-empty but no frame has
geometry, the global safe zoom stays at the configured maximum 1.0, and
the solver stores 0.95 — the maximum after the 0.95 margin, floor and
clamp — rather than 1.0 unchanged. -/
theorem autoFit_noGeometry (W H : ℝ) (frames : List Frame)
    (hne : frames ≠ []) (hall : ∀ fr ∈ frames, fr.detections = none) :
    autoFitMinSafeZoom W H frames = 1 ∧ autoFitZoom W H frames = 0.95 := by
  have hmin : autoFitMinSafeZoom W H frames = 1 := by
    rw [autoFitMinSafeZoom]
    have : ∀ (fs : List Frame), (∀ fr ∈ fs, fr.detections = none) → ∀ (a : ℝ),
        fs.foldl (fun minSafeZoom item =>
          match item.detections with
          | none => minSafeZoom
          | some lm =>
            match frameSafeZoom W H item.width item.height lm with
            | none => minSafeZoom
            | some safeZoom => min minSafeZoom safeZoom) a = a := by
      intro fs
      induction fs with
      | nil => intro _ a; rfl
      | cons fr t ih =>
        intro hfs a
        have hfr : fr.detections = none := hfs fr (List.mem_cons_self fr t)
        simp only [List.foldl_cons, hfr]
        exact ih (fun x hx => hfs x (List.mem_cons_of_mem fr hx)) a
    exact (this frames hall 1.0).trans (by norm_num)
  refine ⟨hmin, ?_⟩
  rw [autoFitZoom, hmin]
  norm_num [min_def, max_def]

/-- Witness for C6 (amended) at a concrete one-frame list. -/
theorem autoFit_noGeometry_witness :
    autoFitMinSafeZoom 100 100 [noDetFrame] = 1 ∧
      autoFitZoom 100 100 [noDetFrame] = 0.95 :=
  autoFit_noGeometry 100 100 [noDetFrame] (by simp)
    (by intro fr hfr; simp only [List.mem_singleton] at hfr; rw [hfr]; rfl)

/-- C7 counterexample: a degenerate frame makes the minimum bound 0 (not
positive), yet no failure is surfaced and the previous zoom 0.25 is
overwritten with the clamp floor 0.1. -/
theorem infeasible_overwrites_zoom :
    autoFitMinSafeZoom 100 100 [degFrame] = 0 ∧
      (autoFitSession ⟨[degFrame], 100, 100, 0.25, 10, 0, false, true⟩).zoom = 0.1 ∧
      (0.1 : ℝ) ≠ 0.25 := by
  refine ⟨minSafe_deg, ?_, by norm_num⟩
  simp only [autoFitSession]
  norm_num [autoFitZoom_deg]

/-- C7 (amended): when the computed minimum bound is zero or negative the
solver does not fail and does not keep the previous zoom: the
margin/floor/clamp pipeline always stores the clamp floor 0.1. -/
theorem autoFit_nonpositive_clamps (W H : ℝ) (frames : List Frame)
    (h : autoFitMinSafeZoom W H frames ≤ 0) :
    autoFitZoom W H frames = 0.1 := by
  rw [autoFitZoom]
  have h1 : autoFitMinSafeZoom W H frames * 0.95 * 100 ≤ 0 := by nlinarith
  have h2 : (⌊autoFitMinSafeZoom W H frames * 0.95 * 100⌋ : ℝ) ≤ 0 := by
    exact_mod_cast le_trans (Int.floor_le_floor h1) (by norm_num)
  have h3 : (⌊autoFitMinSafeZoom W H frames * 0.95 * 100⌋ : ℝ) / 100 ≤ 0 := by linarith
  rw [min_eq_right (le_trans h3 (by norm_num))]
  exact max_eq_left (le_trans h3 (by norm_num))

/-- Witness for C7 (amended) at the degenerate frame. -/
theorem autoFit_nonpositive_clamps_witness :
    autoFitZoom 100 100 [degFrame] = 0.1 :=
  autoFit_nonpositive_clamps 100 100 [degFrame] (le_of_eq minSafe_deg)

lemma safeZoomOf_d8 : frameSafeZoomOf 100 100 10 10 ⟨5, 5⟩ 0 8 = some 0.64 := by
  rw [frameSafeZoomOf, maxScale_ten]
  norm_num

lemma safeZoomOf_d4 : frameSafeZoomOf 100 100 10 10 ⟨5, 5⟩ 0 4 = some 0.32 := by
  rw [frameSafeZoomOf, maxScale_ten]
  norm_num

/-- C8 counterexample: with the corners, eyes center and angle held fixed,
decreasing the eye distance from 8 to 4 decreases the per-frame safe zoom
from 0.64 to 0.32 — the claimed direction of monotonicity fails. -/
theorem safeZoom_monotone_cex :
    frameSafeZoomOf 100 100 10 10 ⟨5, 5⟩ 0 8 = some 0.64 ∧
      frameSafeZoomOf 100 100 10 10 ⟨5, 5⟩ 0 4 = some 0.32 ∧
      ¬ ((0.64 : ℝ) ≤ 0.32) :=
  ⟨safeZoomOf_d8, safeZoomOf_d4, by norm_num⟩

/-- C8 (amended): the per-frame safe zoom is monotone **nondecreasing** in
the eye distance: decreasing `eyeDistance` while holding the corners and
the rest of the geometry fixed never increases the computed safe zoom
(`safeZoom = maxScale * eyeDistance / canvasWidth` with `maxScale ≥ 0`). -/
theorem frameSafeZoom_monotone (W H w h : ℝ) (c : Point2D) (a d d' z z' : ℝ)
    (hW : 0 < W) (hH : 0 < H) (h0 : 0 ≤ d') (hdd : d' ≤ d)
    (hz : frameSafeZoomOf W H w h c a d = some z)
    (hz' : frameSafeZoomOf W H w h c a d' = some z') :
    z' ≤ z := by
  rw [frameSafeZoomOf] at hz hz'
  cases hs : maxScaleForImage W H w h c a with
  | none =>
    rw [hs] at hz
    simp at hz
  | some s =>
    rw [hs] at hz hz'
    simp only [Option.map_some', Option.some.injEq] at hz hz'
    have hsnn : 0 ≤ s := maxScaleForImage_nonneg w h c a hW hH s hs
    rw [← hz, ← hz']
    gcongr

/-- Witness for C8 (amended) at the concrete inputs of the counterexample,
in the corrected direction. -/
theorem frameSafeZoom_monotone_witness : (0.32 : ℝ) ≤ 0.64 :=
  frameSafeZoom_monotone 100 100 10 10 ⟨5, 5⟩ 0 8 4 0.64 0.32 (by norm_num)
    (by norm_num) (by norm_num) (by norm_num) safeZoomOf_d8 safeZoomOf_d4

/-- C9 counterexample: a frame whose detection has an empty left-eye point
cluster is still rendered through the aligned branch (it is not treated as
geometry-absent/letterbox), and `getCentroid` of the empty cluster does
not fail — it returns the junk point `(0/0, 0/0)` (`NaN` in JS), here
`(0, 0)`. -/
theorem empty_cluster_no_fallback :
    usesLetterbox true emptyClusterFrame = false ∧
      getCentroid [] = ⟨0, 0⟩ := by
  refine ⟨rfl, ?_⟩
  simp [getCentroid]

/-- C9 (amended): each eye's representative point is the arithmetic
centroid of its (non-empty) landmark point subset; on an empty cluster no
`InvalidLandmarks` failure exists in the code — `getCentroid` divides by
zero instead and the frame is not downgraded to letterbox. -/
theorem getCentroid_arithmetic_mean (points : List Point2D) (hne : points ≠ []) :
    getCentroid points =
      ⟨(points.map (fun p => p.x)).sum / points.length,
       (points.map (fun p => p.y)).sum / points.length⟩ :=
  getCentroid_sum points

/-- Witness for C9 (amended) at a concrete two-point cluster. -/
theorem getCentroid_arithmetic_mean_witness :
    getCentroid [⟨1, 2⟩, ⟨3, 6⟩] =
      ⟨(([⟨1, 2⟩, ⟨3, 6⟩] : List Point2D).map (fun p => p.x)).sum / 2,
       (([⟨1, 2⟩, ⟨3, 6⟩] : List Point2D).map (fun p => p.y)).sum / 2⟩ :=
  getCentroid_arithmetic_mean [⟨1, 2⟩, ⟨3, 6⟩] (by simp)

/-- C10: with an empty frame sequence the auto-fit operation returns
immediately and the whole session state — the zoom included — is
unchanged. -/
theorem autoFit_empty_noop (s : Session) (h : s.images = []) :
    autoFitSession s = s := by
  rw [autoFitSession, if_pos]
  rw [h]
  rfl

/-- Witness for C10 at a concrete session. -/
theorem autoFit_empty_noop_witness :
    autoFitSession ⟨[], 640, 480, 0.25, 10, 3, true, true⟩ =
      ⟨[], 640, 480, 0.25, 10, 3, true, true⟩ :=
  autoFit_empty_noop ⟨[], 640, 480, 0.25, 10, 3, true, true⟩ rfl
